import Mathlib

/-!
Verification development for the bemio hydrodynamic-data module
(src/bemio/data_structures/bem.py, class HydrodynamicData).

Shallow embedding conventions:
* numpy float arrays are modelled as functions `Nat -> Rat` (1-D) or curried
  functions for higher rank, carrying exact rational values; lengths/shapes are
  passed or stored alongside.
* `np.cos` / `np.sin` are abstracted as function parameters `cosF sinF : Rat -> Rat`
  (their float values are transcendental); every statement quantifies over them.
* `np.pi` is the literal float constant; we carry it as a fixed rational `np_pi`.
  All claims compared here use the same constant on both sides, so its exact
  value never matters.
* fallible numpy/scipy operations are modelled with `Except PyErr`.
* the state-space reduction loop of `calc_ss_radiation` performs a Hankel SVD
  and a matrix exponential whose outputs are irrational; the per-order
  realization outcome (matrices `ac, bc, cc`, scalar `dc`, and the impulse
  response samples `k_ss_est`) is therefore abstracted as a parameter
  `body : Nat -> Nat -> Nat -> PairRes` ((i, j, order) -> outcome), while the
  surrounding control flow (the order search, the R2 test, the container
  writes and statuses) is embedded concretely.  The code's 2-norm quantities
  are carried squared: `r2bt != 0` iff its square is nonzero, and the code's
  `R2T = 1 - (|K - k_est| / r2bt)^2` equals `1 - sumSq (K - k_est) / sumSq (K - mean K)`
  exactly, so no square root is ever needed.
-/

/-- Errors surfaced by the numpy/scipy layer, named after the situations in the
module (and the specification's error taxonomy). -/
inductive PyErr where
  /-- `np.min` / `np.max` of an empty array (ValueError). -/
  | minEmpty : PyErr
  /-- out-of-bounds array read such as `self.w[1]` on a 1-point grid. -/
  | indexError : PyErr
  /-- `scipy.interpolate.interp1d` given fewer than 2 data points
  (the specification's InsufficientDataError). -/
  | insufficientData : PyErr
  /-- `raise Exception(msg)` for an unimplemented feature
  (the specification's UnimplementedError). -/
  | notImplemented (msg : String) : PyErr
  /-- numpy broadcast failure when assigning a block larger than its
  destination slice. -/
  | broadcastError : PyErr
deriving DecidableEq, Repr

/-- Sum of `f 0 + f 1 + ... + f (n-1)` over the rationals. -/
def sumTo (n : Nat) (f : Nat → ℚ) : ℚ :=
  match n with
  | 0 => 0
  | m + 1 => sumTo m f + f m

/-- `np.linspace a b n` sampled at index `k`: `a + (b - a) * k / (n - 1)`.
For `n = 1` the rational division by zero yields `a`, matching numpy's
single-point behaviour. -/
def linspace (a b : ℚ) (n : Nat) (k : Nat) : ℚ :=
  a + (b - a) * k / ((n - 1 : Nat) : ℚ)

/-- `np.trapz(y=y, x=x)` over `n` samples: the trapezoid rule
`sum dx_k * (y_k + y_{k+1}) / 2`. -/
def trapz (y x : Nat → ℚ) (n : Nat) : ℚ :=
  sumTo (n - 1) (fun k => (x (k + 1) - x k) * (y k + y (k + 1)) / 2)

/-- `np.min` of the first `n` entries (caller must ensure `n ≠ 0`). -/
def npMin (w : Nat → ℚ) (n : Nat) : ℚ :=
  (List.range n).foldl (fun a k => min a (w k)) (w 0)

/-- `np.max` of the first `n` entries (caller must ensure `n ≠ 0`). -/
def npMax (w : Nat → ℚ) (n : Nat) : ℚ :=
  (List.range n).foldl (fun a k => max a (w k)) (w 0)

/-- `np.flipud` on an array of length `n`. -/
def flipud (n : Nat) (y : Nat → ℚ) : Nat → ℚ :=
  fun k => y (n - 1 - k)

/-- Index of the interpolation segment of `q` in the grid `x` of length `n`:
the largest `i < n - 1` with `x i ≤ q` (0 if none).  For an ascending grid and
an in-range query this is the segment containing `q`. -/
def findSeg (x : Nat → ℚ) (n : Nat) (q : ℚ) : Nat :=
  (List.range (n - 1)).foldl (fun acc i => if x i ≤ q then i else acc) 0

/-- Value of `scipy.interpolate.interp1d(x, y)` (piecewise linear) at `q`,
for a grid of length `n ≥ 2` queried inside its range. -/
def interpVal (x y : Nat → ℚ) (n : Nat) (q : ℚ) : ℚ :=
  let k := findSeg x n q
  y k + (y (k + 1) - y k) * (q - x k) / (x (k + 1) - x k)

/-- The float constant `np.pi` carried as a rational. -/
def np_pi : ℚ := 3.141592653589793

/-- The slice of the hydrodynamic coefficient store consumed by the impulse
response functions: the frequency grid `self.w` (length `nw`), the common
leading shape `(d1, d2)` of `ex.mag` / `rd.all` / `am.inf`, the excitation
channels `ex.re` / `ex.im`, and the radiation channels `rd.im` / `rd.all`. -/
structure BemStore where
  nw : Nat
  w : Nat → ℚ
  d1 : Nat
  d2 : Nat
  ex_re : Nat → Nat → Nat → ℚ
  ex_im : Nat → Nat → Nat → ℚ
  rd_im : Nat → Nat → Nat → ℚ
  rd_all : Nat → Nat → Nat → ℚ

/-- Output of `calc_irf_excitation`: `self.ex.irf.t`, `self.ex.irf.w`,
`self.ex.irf.f`. -/
structure ExIrfOut where
  t : Nat → ℚ
  w : Nat → ℚ
  f : Nat → Nat → Nat → ℚ

/-- Output of `calc_irf_radiation`: `self.rd.irf.t`, `self.rd.irf.w`,
`self.rd.irf.K`, `self.rd.irf.L`. -/
structure RadIrfOut where
  t : Nat → ℚ
  w : Nat → ℚ
  K : Nat → Nat → Nat → ℚ
  L : Nat → Nat → Nat → ℚ

/-- Embedding of `HydrodynamicData.calc_irf_excitation` (bem.py lines 112-169).
Faithful points: the time grid is `linspace(-t_length, t_length, n_t)`; the
frequency grid is `linspace(min w, max w, n_w)`; an empty `w` fails inside
`np.min`, a 1-point `w` fails reading `self.w[1]` in the direction check; when
the grid is descending the code flips `self.ex.re[i,j,:]` but — as written on
line 142 — `self.rd.im[i,j,:]` (not `self.ex.im`); the kernel is the trapezoid
quadrature of `(re*cos - im*sin) * (1/pi)` over the resampled grid. -/
def calcIrfExcitation (cosF sinF : ℚ → ℚ) (st : BemStore) (t_length : ℚ)
    (n_t n_w : Nat) : Except PyErr ExIrfOut :=
  let t := linspace (-t_length) t_length n_t
  if st.nw = 0 then .error .minEmpty
  else
    let wg := linspace (npMin st.w st.nw) (npMax st.w st.nw) n_w
    if st.nw < 2 then .error .indexError
    else
      let flip := st.w 0 > st.w 1
      let wtmp := if flip then flipud st.nw st.w else st.w
      let reCh := fun i j => if flip then flipud st.nw (st.ex_re i j) else st.ex_re i j
      -- source line 142: `ex_tmp_im = np.flipud(self.rd.im[i, j, :])`
      let imCh := fun i j => if flip then flipud st.nw (st.rd_im i j) else st.ex_im i j
      let reI := fun i j k => interpVal wtmp (reCh i j) st.nw (wg k)
      let imI := fun i j k => interpVal wtmp (imCh i j) st.nw (wg k)
      .ok { t := t
            w := wg
            f := fun i j tIdx =>
              if i < st.d1 ∧ j < st.d2 ∧ tIdx < n_t then
                trapz (fun k =>
                    (reI i j k * cosF (wg k * t tIdx) -
                     imI i j k * sinF (wg k * t tIdx)) * (1 / np_pi))
                  wg n_w
              else 0 }

/-- Embedding of `HydrodynamicData.calc_irf_radiation` (bem.py lines 174-228).
The time grid is `linspace(0, t_end, n_t)`; the damping slice and the grid are
flipped together when the grid is descending; `K` integrates
`2/pi * rd_interp * cos(w t)` and `L` integrates `2/pi * rd_interp * sin(w t)`
with `np.trapz` over the resampled frequency grid. -/
def calcIrfRadiation (cosF sinF : ℚ → ℚ) (st : BemStore) (t_end : ℚ)
    (n_t n_w : Nat) : Except PyErr RadIrfOut :=
  let t := linspace 0 t_end n_t
  if st.nw = 0 then .error .minEmpty
  else
    let wg := linspace (npMin st.w st.nw) (npMax st.w st.nw) n_w
    if st.nw < 2 then .error .indexError
    else
      let flip := st.w 0 > st.w 1
      let wtmp := if flip then flipud st.nw st.w else st.w
      let rdCh := fun i j => if flip then flipud st.nw (st.rd_all i j) else st.rd_all i j
      let rdI := fun i j k => interpVal wtmp (rdCh i j) st.nw (wg k)
      .ok { t := t
            w := wg
            K := fun i j tIdx =>
              if i < st.d1 ∧ j < st.d2 ∧ tIdx < n_t then
                trapz (fun k => 2 / np_pi * rdI i j k * cosF (wg k * t tIdx)) wg n_w
              else 0
            L := fun i j tIdx =>
              if i < st.d1 ∧ j < st.d2 ∧ tIdx < n_t then
                trapz (fun k => 2 / np_pi * rdI i j k * sinF (wg k * t tIdx)) wg n_w
              else 0 }

/-- Embedding of `HydrodynamicData.calc_ss_excitation` (bem.py lines 171-172):
the body is a single `raise`. -/
def calcSsExcitation (st : BemStore) (t_end : ℚ) (n_t n_w : Nat) :
    Except PyErr ExIrfOut :=
  .error (.notImplemented "The calc_ss_excitation function is not yet implemented")

/-! ## State-space radiation reduction (`calc_ss_radiation`, bem.py lines 230-340) -/

/-- Outcome of one run of the order-search loop body of `calc_ss_radiation` at
a candidate order `ss` for one `(i, j)` pair: the continuous realization
`ac, bc, cc, dc` obtained from the Hankel SVD and the bilinear transform, and
the impulse response samples `k_ss_est` recomputed via `expm`.  Entries beyond
the `ss`-sized leading block (resp. beyond `numFreq` samples) are irrelevant.
These values are irrational in general (SVD, matrix exponential), so the loop
driver below is parametrized by them. -/
structure PairRes where
  ac : Nat → Nat → ℚ
  bc : Nat → ℚ
  cc : Nat → ℚ
  dc : ℚ
  kEst : Nat → ℚ

/-- What `calc_ss_radiation` records for one `(i, j)` pair: nothing (the
`r2bt == 0` skip) or a realization together with its status, final `R2T` value
and final order. -/
inductive PairOut where
  | degenerate : PairOut
  | reduced (res : PairRes) (status : Nat) (r2 : ℚ) (fin : Nat) : PairOut

/-- Square of `r2bt = np.linalg.norm(K - K.mean())` over the first `n`
samples.  The code only tests `r2bt != 0.0` and divides by `r2bt` inside a
square, so carrying the square is exact. -/
def r2btSq (K : Nat → ℚ) (n : Nat) : ℚ :=
  sumTo n (fun k => (K k - sumTo n K / (n : ℚ)) ^ 2)

/-- The code's fit quality `R2T = 1 - (norm(K - k_ss_est) / r2bt)^2`, written
with squared 2-norms (exactly equal, since the ratio is squared). -/
def r2Of (K kEst : Nat → ℚ) (n : Nat) : ℚ :=
  1 - sumTo n (fun k => (K k - kEst k) ^ 2) / r2btSq K n

/-- Fit quality reached by the abstracted loop body for pair `(i, j)` at
order `ss`. -/
def pairR2 (body : Nat → Nat → Nat → PairRes) (K : Nat → Nat → Nat → ℚ)
    (numFreq i j ss : Nat) : ℚ :=
  r2Of (K i j) (body i j ss).kEst numFreq

/-- The `while True:` order search of `calc_ss_radiation` (bem.py lines
278-326), fuel-indexed: starting from order `ss`, stop with status 1 at the
first order whose fit quality meets `r2_thresh`; otherwise stop with status 2
when `ss == max_order`; otherwise increase the order by one.  `none` models
non-termination (fuel exhausted at every fuel). -/
def ssLoopGo (R2 : Nat → ℚ) (r2_thresh : ℚ) (max_order : Nat) :
    Nat → Nat → Option (Nat × Nat)
  | 0, _ => none
  | fuel + 1, ss =>
    if R2 ss ≥ r2_thresh then some (1, ss)
    else if ss = max_order then some (2, ss)
    else ssLoopGo R2 r2_thresh max_order fuel (ss + 1)

/-- Processing of one `(i, j)` pair by `calc_ss_radiation`: skip when
`r2bt == 0`; otherwise run the order search from `ss = 2`.  When the final
order exceeds `max_order`, the numpy block assignment
`A[i,j,0:ss,0:ss] = ac` cannot broadcast and raises, which is modelled as
`.error .broadcastError`. -/
def ssPair (bodyIJ : Nat → PairRes) (K : Nat → ℚ) (numFreq : Nat)
    (r2_thresh : ℚ) (max_order fuel : Nat) : Option (Except PyErr PairOut) :=
  if r2btSq K numFreq = 0 then some (.ok .degenerate)
  else
    match ssLoopGo (fun ss => r2Of K (bodyIJ ss).kEst numFreq) r2_thresh max_order fuel 2 with
    | none => none
    | some (st, fin) =>
      if fin ≤ max_order then
        some (.ok (.reduced (bodyIJ fin) st (r2Of K (bodyIJ fin).kEst numFreq) fin))
      else some (.error .broadcastError)

/-- The result containers of `calc_ss_radiation` (bem.py lines 257-265),
all zero-initialized by `np.zeros`.  `A` drops no index; `B` keeps only its
row index (its trailing dimension is 1), `C` only its column index, `D` is a
scalar per pair.  The per-pair block shapes recorded by the `np.zeros` calls
are kept alongside. -/
structure SSOut where
  A : Nat → Nat → Nat → Nat → ℚ
  B : Nat → Nat → Nat → ℚ
  C : Nat → Nat → Nat → ℚ
  D : Nat → Nat → ℚ
  irk_bss : Nat → Nat → Nat → ℚ
  rad_conv : Nat → Nat → ℚ
  r2t : Nat → Nat → ℚ
  it : Nat → Nat → ℚ
  Ashape : Nat × Nat
  Bshape : Nat × Nat
  Cshape : Nat × Nat

/-- The zero-initialized containers (`np.zeros([6, d2, max_order, max_order])`
and the companions). -/
def initOut (max_order : Nat) : SSOut :=
  { A := fun _ _ _ _ => 0
    B := fun _ _ _ => 0
    C := fun _ _ _ => 0
    D := fun _ _ => 0
    irk_bss := fun _ _ _ => 0
    rad_conv := fun _ _ => 0
    r2t := fun _ _ => 0
    it := fun _ _ => 0
    Ashape := (max_order, max_order)
    Bshape := (max_order, 1)
    Cshape := (1, max_order) }

/-- The writes of bem.py lines 328-335 for pair `(i, j)`: the leading
`fin × fin` block of `A`, the leading `fin` entries of `B` and `C`, the
scalar `D`, the whole `irk_bss` time slice, and the scalars
`rad_conv = status`, `r2t = R2T`, `it = ss`.  A degenerate pair writes
nothing. -/
def applyPair (numFreq : Nat) (o : SSOut) (i j : Nat) : PairOut → SSOut
  | .degenerate => o
  | .reduced res st r2 fin =>
    { o with
      A := fun a b r s =>
        if a = i ∧ b = j then
          (if r < fin ∧ s < fin then res.ac r s else o.A a b r s)
        else o.A a b r s
      B := fun a b r =>
        if a = i ∧ b = j then (if r < fin then res.bc r else o.B a b r)
        else o.B a b r
      C := fun a b s =>
        if a = i ∧ b = j then (if s < fin then res.cc s else o.C a b s)
        else o.C a b s
      D := fun a b => if a = i ∧ b = j then res.dc else o.D a b
      irk_bss := fun a b k =>
        if a = i ∧ b = j then (if k < numFreq then res.kEst k else o.irk_bss a b k)
        else o.irk_bss a b k
      rad_conv := fun a b => if a = i ∧ b = j then (st : ℚ) else o.rad_conv a b
      r2t := fun a b => if a = i ∧ b = j then r2 else o.r2t a b
      it := fun a b => if a = i ∧ b = j then (fin : ℚ) else o.it a b }

/-- The iteration order of the two nested pair loops: `i` over `range 6`
(the container leading dimension), `j` over `range d2`. -/
def allPairs (d2 : Nat) : List (Nat × Nat) :=
  (List.range 6).flatMap (fun i => (List.range d2).map (fun j => (i, j)))

/-- Sequential processing of a list of pairs, threading the mutable
containers; a raised exception aborts the remaining pairs, and a diverging
pair makes the whole call diverge. -/
def runPairs (body : Nat → Nat → Nat → PairRes) (K : Nat → Nat → Nat → ℚ)
    (numFreq : Nat) (r2_thresh : ℚ) (max_order fuel : Nat) :
    List (Nat × Nat) → SSOut → Option (Except PyErr SSOut)
  | [], o => some (.ok o)
  | (i, j) :: rest, o =>
    match ssPair (body i j) (K i j) numFreq r2_thresh max_order fuel with
    | none => none
    | some (.error e) => some (.error e)
    | some (.ok po) =>
      runPairs body K numFreq r2_thresh max_order fuel rest (applyPair numFreq o i j po)

/-- Embedding of `HydrodynamicData.calc_ss_radiation` (bem.py lines 230-340):
zero-initialize the containers sized by `max_order`, then process every
`(i, j)` pair in loop order.  `K i j` is the slice `self.rd.irf.K[i,j,:]` of
length `numFreq = self.rd.irf.t.size`; `body` abstracts the Hankel-SVD /
bilinear / `expm` numerics of the loop body (the sampling step
`dt = t[2] - t[1]` only enters through `body`). -/
def calcSsRadiation (body : Nat → Nat → Nat → PairRes) (K : Nat → Nat → Nat → ℚ)
    (numFreq d2 : Nat) (r2_thresh : ℚ) (max_order fuel : Nat) :
    Option (Except PyErr SSOut) :=
  runPairs body K numFreq r2_thresh max_order fuel (allPairs d2) (initOut max_order)

/-! ## The bilinear (Tustin) transform step (bem.py lines 297-307) -/

/-- Matrix inverse over `ℚ` via the adjugate (`np.linalg.inv` for a
nonsingular argument). -/
def matInv {n : Nat} (A : Matrix (Fin n) (Fin n) ℚ) : Matrix (Fin n) (Fin n) ℚ :=
  A.det⁻¹ • A.adjugate

/-- Embedding of the discrete-to-continuous conversion inside the loop body of
`calc_ss_radiation` (bem.py lines 297-307), applied to the discrete
realization `(a, b, c, d)` at order `n` with sampling interval `dt`:
`CoeA = dt/2`, `CoeB = 1`, `CoeC = -CoeA`, `CoeD = 1`,
`iidd = inv(CoeA*I - CoeC*a)`, `ac = (CoeB*a - CoeD*I) iidd`,
`bc = (CoeA*CoeB - CoeC*CoeD) * (iidd b)`, `cc = c iidd`,
`dc = d + CoeC * (c iidd b)`. -/
def bilinearTransform {n : Nat} (dt : ℚ) (a : Matrix (Fin n) (Fin n) ℚ)
    (b : Matrix (Fin n) (Fin 1) ℚ) (c : Matrix (Fin 1) (Fin n) ℚ) (d : ℚ) :
    Matrix (Fin n) (Fin n) ℚ × Matrix (Fin n) (Fin 1) ℚ ×
      Matrix (Fin 1) (Fin n) ℚ × ℚ :=
  let CoeA := dt / 2
  let CoeB : ℚ := 1
  let CoeC := -CoeA
  let CoeD : ℚ := 1
  let iidd := matInv (CoeA • (1 : Matrix (Fin n) (Fin n) ℚ) - CoeC • a)
  let ac := (CoeB • a - CoeD • (1 : Matrix (Fin n) (Fin n) ℚ)) * iidd
  let bc := (CoeA * CoeB - CoeC * CoeD) • (iidd * b)
  let cc := c * iidd
  let dc := d + CoeC * ((c * iidd * b) 0 0)
  (ac, bc, cc, dc)

/-! ## Specification-side definitions

The following definitions transcribe the specification's wording (spec.md
sections 4.1 and 4.2) and are compared against the embedded code. -/

/-- Spec: the target uniform grid spans `[min(original), max(original)]` with
`N` points. -/
def specFreqGrid (st : BemStore) (n_w : Nat) : Nat → ℚ :=
  linspace (npMin st.w st.nw) (npMax st.w st.nw) n_w

/-- Spec: for radiation, `K(t) = (2/pi) * integral of rd(w) cos(w t) dw` by
trapezoidal quadrature over the resampled frequency grid, at the time grid
`linspace(0, t_end, n_t)`, with `rd` the piecewise-linear resampling of
`rd.all[i,j,:]`. -/
def radKernelSpecK (cosF : ℚ → ℚ) (st : BemStore) (t_end : ℚ)
    (n_t n_w : Nat) (i j tIdx : Nat) : ℚ :=
  let tg := linspace 0 t_end n_t
  let wg := specFreqGrid st n_w
  2 / np_pi *
    trapz (fun k => interpVal st.w (st.rd_all i j) st.nw (wg k) *
      cosF (wg k * tg tIdx)) wg n_w

/-- Spec: for radiation, `L(t) = (2/pi) * integral of rd(w) sin(w t) dw`. -/
def radKernelSpecL (sinF : ℚ → ℚ) (st : BemStore) (t_end : ℚ)
    (n_t n_w : Nat) (i j tIdx : Nat) : ℚ :=
  let tg := linspace 0 t_end n_t
  let wg := specFreqGrid st n_w
  2 / np_pi *
    trapz (fun k => interpVal st.w (st.rd_all i j) st.nw (wg k) *
      sinF (wg k * tg tIdx)) wg n_w

/-- Spec: for excitation,
`f(t) = (1/pi) * integral of (re(w) cos(w t) - im(w) sin(w t)) dw` by
trapezoidal quadrature, at the two-sided time grid
`linspace(-t_length, t_length, n_t)`, with `re` / `im` the piecewise-linear
resamplings of the real and imaginary excitation channels. -/
def exKernelSpec (cosF sinF : ℚ → ℚ) (st : BemStore) (t_length : ℚ)
    (n_t n_w : Nat) (i j tIdx : Nat) : ℚ :=
  let tg := linspace (-t_length) t_length n_t
  let wg := specFreqGrid st n_w
  1 / np_pi *
    trapz (fun k =>
      interpVal st.w (st.ex_re i j) st.nw (wg k) * cosF (wg k * tg tIdx) -
      interpVal st.w (st.ex_im i j) st.nw (wg k) * sinF (wg k * tg tIdx)) wg n_w

/-- The store with the frequency grid and every grid-paired coefficient slice
reversed (the "ascending equivalent" of a descending-grid store). -/
def revStore (st : BemStore) : BemStore :=
  { nw := st.nw
    w := flipud st.nw st.w
    d1 := st.d1
    d2 := st.d2
    ex_re := fun i j => flipud st.nw (st.ex_re i j)
    ex_im := fun i j => flipud st.nw (st.ex_im i j)
    rd_im := fun i j => flipud st.nw (st.rd_im i j)
    rd_all := fun i j => flipud st.nw (st.rd_all i j) }

/-! ## Concrete evaluation inputs -/

/-- A constant stand-in for the abstracted `np.cos` / `np.sin`. -/
def constOne : ℚ → ℚ := fun _ => 1

/-- A 1x1-component store with a strictly descending 2-point frequency grid
`w = [2, 1]`, zero `ex.re`, constant-one `ex.im`, zero `rd.im`, and a
non-constant `rd.all`. -/
def descStore : BemStore :=
  { nw := 2
    w := fun k => if k = 0 then 2 else 1
    d1 := 1
    d2 := 1
    ex_re := fun _ _ _ => 0
    ex_im := fun _ _ _ => 1
    rd_im := fun _ _ _ => 0
    rd_all := fun _ _ k => if k = 0 then 5 else 7 }

/-- A 1x1-component store with the ascending grid `w = [1, 2]`. -/
def ascStore : BemStore :=
  { nw := 2
    w := fun k => if k = 0 then 1 else 2
    d1 := 1
    d2 := 1
    ex_re := fun _ _ _ => 0
    ex_im := fun _ _ _ => 1
    rd_im := fun _ _ _ => 0
    rd_all := fun _ _ k => if k = 0 then 5 else 7 }

/-- A 1-point-grid store (frequency grid too short to interpolate). -/
def onePointStore : BemStore :=
  { nw := 1
    w := fun _ => 3
    d1 := 1
    d2 := 1
    ex_re := fun _ _ _ => 0
    ex_im := fun _ _ _ => 0
    rd_im := fun _ _ _ => 0
    rd_all := fun _ _ _ => 0 }

/-- Whether an `Except` result is a success. -/
def isOkE {α : Type} (r : Except PyErr α) : Bool :=
  match r with
  | .ok _ => true
  | .error _ => false

/-- The excitation kernel of a successful `calcIrfExcitation` run
(zero on error). -/
def exFOf (r : Except PyErr ExIrfOut) : Nat → Nat → Nat → ℚ :=
  match r with
  | .ok o => o.f
  | .error _ => fun _ _ _ => 0

/-- The radiation `K` kernel of a successful `calcIrfRadiation` run
(zero on error). -/
def radKOf (r : Except PyErr RadIrfOut) : Nat → Nat → Nat → ℚ :=
  match r with
  | .ok o => o.K
  | .error _ => fun _ _ _ => 0

/-- Concrete radiation IRF slices for exercising `calcSsRadiation`: the pair
`(0, 0)` carries the samples `[1, -1]` (nonzero deviation from its mean) and
every other pair is identically zero (degenerate). -/
def cK : Nat → Nat → Nat → ℚ :=
  fun i j k => if i = 0 ∧ j = 0 then (if k = 0 then 1 else -1) else 0

/-- A concrete abstracted loop body whose estimated impulse response equals
the reference kernel exactly (so the fit succeeds at the initial order 2). -/
def cBody : Nat → Nat → Nat → PairRes :=
  fun i j _ => { ac := fun _ _ => 0
                 bc := fun _ => 0
                 cc := fun _ => 0
                 dc := 0
                 kEst := fun k => cK i j k }

/-- The containers produced by the concrete run
`calcSsRadiation cBody cK 2 1 (1/2) 10 20`: only the pair `(0, 0)` is
reduced (status 1 at order 2 with perfect fit), every other pair is
degenerate. -/
def cOut : SSOut := applyPair 2 (initOut 10) 0 0 (.reduced (cBody 0 0 2) 1 1 2)

/-- Pointwise agreement of two container states at one `(i, j)` pair, field by
field. -/
def sameAt (o o' : SSOut) (i j : Nat) : Prop :=
  (∀ r s, o.A i j r s = o'.A i j r s) ∧
  (∀ r, o.B i j r = o'.B i j r) ∧
  (∀ s, o.C i j s = o'.C i j s) ∧
  o.D i j = o'.D i j ∧
  (∀ k, o.irk_bss i j k = o'.irk_bss i j k) ∧
  o.rad_conv i j = o'.rad_conv i j ∧
  o.r2t i j = o'.r2t i j ∧
  o.it i j = o'.it i j

/-! ## Arithmetic helper lemmas -/

theorem sumTo_mul (c : ℚ) (f : Nat → ℚ) (n : Nat) :
    sumTo n (fun k => c * f k) = c * sumTo n f := by
  induction n with
  | zero => simp [sumTo]
  | succ m ih => simp only [sumTo, ih]; ring

theorem trapz_smul (c : ℚ) (y x : Nat → ℚ) (n : Nat) :
    trapz (fun k => c * y k) x n = c * trapz y x n := by
  unfold trapz
  rw [← sumTo_mul]
  congr 1
  funext k
  ring

theorem trapz_mul_const (c : ℚ) (y x : Nat → ℚ) (n : Nat) :
    trapz (fun k => y k * c) x n = c * trapz y x n := by
  unfold trapz
  rw [← sumTo_mul]
  congr 1
  funext k
  ring

theorem sumTo_one (f : Nat → ℚ) : sumTo 1 f = f 0 := by
  show 0 + f 0 = f 0
  rw [zero_add]

theorem sumTo_two (f : Nat → ℚ) : sumTo 2 f = f 0 + f 1 := by
  show 0 + f 0 + f 1 = f 0 + f 1
  rw [zero_add]

theorem range_one : List.range 1 = [0] := rfl

theorem range_two : List.range 2 = [0, 1] := rfl

/-! ## Claims C4, C5, C1: the impulse response engine -/

/-- C4: `calc_irf_radiation` uses the time grid `linspace(0, t_end, n_t)` and,
for every in-range `(i, j)` and time index, computes `K` as the trapezoidal
quadrature of `(2/pi) * rd_interp(w) * cos(w t)` and `L` as that of
`(2/pi) * rd_interp(w) * sin(w t)` over the uniform `n_w`-point frequency
grid, `rd_interp` being the piecewise-linear resampling of `rd.all[i,j,:]`.
(Stated for grids already in ascending order; the descending branch reverses
grid and slice together and is claim C1's subject.) -/
theorem spec_c4 (cosF sinF : ℚ → ℚ) (st : BemStore) (t_end : ℚ) (n_t n_w : Nat)
    (h2 : 2 ≤ st.nw) (hasc : ¬ st.w 0 > st.w 1) :
    ∃ out, calcIrfRadiation cosF sinF st t_end n_t n_w = .ok out ∧
      out.t = linspace 0 t_end n_t ∧
      out.w = specFreqGrid st n_w ∧
      ∀ i j tIdx, i < st.d1 → j < st.d2 → tIdx < n_t →
        out.K i j tIdx = radKernelSpecK cosF st t_end n_t n_w i j tIdx ∧
        out.L i j tIdx = radKernelSpecL sinF st t_end n_t n_w i j tIdx := by
  have h0 : ¬ st.nw = 0 := by omega
  have h1 : ¬ st.nw < 2 := by omega
  simp only [calcIrfRadiation, if_neg h0, if_neg h1, if_neg hasc]
  refine ⟨_, rfl, rfl, rfl, ?_⟩
  intro i j tIdx hi hj ht
  constructor
  · show (if i < st.d1 ∧ j < st.d2 ∧ tIdx < n_t then _ else 0) = _
    rw [if_pos ⟨hi, hj, ht⟩]
    unfold radKernelSpecK specFreqGrid
    simp only [mul_assoc]
    rw [trapz_smul]
  · show (if i < st.d1 ∧ j < st.d2 ∧ tIdx < n_t then _ else 0) = _
    rw [if_pos ⟨hi, hj, ht⟩]
    unfold radKernelSpecL specFreqGrid
    simp only [mul_assoc]
    rw [trapz_smul]

/-- Witness for C4 at a concrete ascending-grid store. -/
theorem spec_c4_witness :
    ∃ out, calcIrfRadiation constOne constOne ascStore 1 1 2 = .ok out ∧
      out.t = linspace 0 1 1 ∧
      out.w = specFreqGrid ascStore 2 ∧
      ∀ i j tIdx, i < ascStore.d1 → j < ascStore.d2 → tIdx < 1 →
        out.K i j tIdx = radKernelSpecK constOne ascStore 1 1 2 i j tIdx ∧
        out.L i j tIdx = radKernelSpecL constOne ascStore 1 1 2 i j tIdx :=
  spec_c4 constOne constOne ascStore 1 1 2 (by norm_num [ascStore])
    (by norm_num [ascStore])

/-- C5 (amended to grids that are not descending): `calc_irf_excitation` uses
the two-sided time grid `linspace(-t_length, t_length, n_t)` and computes
`f[i,j,t]` as the trapezoidal quadrature of
`(1/pi) * (re_interp(w) cos(w t) - im_interp(w) sin(w t))` over the uniform
`n_w`-point frequency grid, with `re_interp` / `im_interp` resampled from the
excitation channels `ex.re` / `ex.im`.  On descending grids the claim fails:
the code resamples `rd.im` instead of `ex.im` (see the counterexample). -/
theorem spec_c5 (cosF sinF : ℚ → ℚ) (st : BemStore) (t_length : ℚ) (n_t n_w : Nat)
    (h2 : 2 ≤ st.nw) (hasc : ¬ st.w 0 > st.w 1) :
    ∃ out, calcIrfExcitation cosF sinF st t_length n_t n_w = .ok out ∧
      out.t = linspace (-t_length) t_length n_t ∧
      out.w = specFreqGrid st n_w ∧
      ∀ i j tIdx, i < st.d1 → j < st.d2 → tIdx < n_t →
        out.f i j tIdx = exKernelSpec cosF sinF st t_length n_t n_w i j tIdx := by
  have h0 : ¬ st.nw = 0 := by omega
  have h1 : ¬ st.nw < 2 := by omega
  simp only [calcIrfExcitation, if_neg h0, if_neg h1, if_neg hasc]
  refine ⟨_, rfl, rfl, rfl, ?_⟩
  intro i j tIdx hi hj ht
  show (if i < st.d1 ∧ j < st.d2 ∧ tIdx < n_t then _ else 0) = _
  rw [if_pos ⟨hi, hj, ht⟩]
  unfold exKernelSpec specFreqGrid
  rw [trapz_mul_const]

/-- Witness for C5 at a concrete ascending-grid store. -/
theorem spec_c5_witness :
    ∃ out, calcIrfExcitation constOne constOne ascStore 1 1 2 = .ok out ∧
      out.t = linspace (-1) 1 1 ∧
      out.w = specFreqGrid ascStore 2 ∧
      ∀ i j tIdx, i < ascStore.d1 → j < ascStore.d2 → tIdx < 1 →
        out.f i j tIdx = exKernelSpec constOne constOne ascStore 1 1 2 i j tIdx :=
  spec_c5 constOne constOne ascStore 1 1 2 (by norm_num [ascStore])
    (by norm_num [ascStore])

/-- Counterexample for C5 as stated: on the descending-grid store `descStore`
the code returns `f[0,0,0] = 0` (it resampled the zero `rd.im` channel),
while the claimed formula — with `im_interp` taken from the excitation
channel `ex.im` — evaluates to `-1/pi`. -/
theorem spec_c5_cex :
    isOkE (calcIrfExcitation constOne constOne descStore 1 1 2) = true ∧
    exFOf (calcIrfExcitation constOne constOne descStore 1 1 2) 0 0 0 = 0 ∧
    exKernelSpec constOne constOne descStore 1 1 2 0 0 0 = -(1 / np_pi) ∧
    exFOf (calcIrfExcitation constOne constOne descStore 1 1 2) 0 0 0 ≠
      exKernelSpec constOne constOne descStore 1 1 2 0 0 0 := by
  refine ⟨by norm_num [calcIrfExcitation, descStore, isOkE], ?_, ?_, ?_⟩
  · norm_num [calcIrfExcitation, descStore, exFOf, constOne, interpVal, findSeg,
      flipud, npMin, npMax, linspace, trapz, sumTo, np_pi, range_one, range_two,
      List.foldl, min_def, max_def]
  · norm_num [exKernelSpec, specFreqGrid, descStore, constOne, interpVal, findSeg,
      flipud, npMin, npMax, linspace, trapz, sumTo, np_pi, range_one, range_two,
      List.foldl, min_def, max_def]
  · norm_num [calcIrfExcitation, exKernelSpec, specFreqGrid, descStore, exFOf,
      constOne, interpVal, findSeg, flipud, npMin, npMax, linspace, trapz, sumTo,
      np_pi, range_one, range_two, List.foldl, min_def, max_def]

/-- C1: evaluation of the descending-grid normalization defect.  On the
descending store `descStore` and on its consistently reversed ascending
equivalent `revStore descStore`, the radiation IRF agrees (`rd.all` is flipped
together with the grid), but the excitation IRF differs — line 142 flips
`self.rd.im[i,j,:]` where the reversal of `self.ex.im[i,j,:]` was required —
so the claimed descending/ascending equivalence fails for
`calc_irf_excitation`. -/
theorem spec_c1_bug :
    isOkE (calcIrfExcitation constOne constOne descStore 1 1 2) = true ∧
    isOkE (calcIrfExcitation constOne constOne (revStore descStore) 1 1 2) = true ∧
    exFOf (calcIrfExcitation constOne constOne descStore 1 1 2) 0 0 0 = 0 ∧
    exFOf (calcIrfExcitation constOne constOne (revStore descStore) 1 1 2) 0 0 0 =
      -(1 / np_pi) ∧
    exFOf (calcIrfExcitation constOne constOne descStore 1 1 2) 0 0 0 ≠
      exFOf (calcIrfExcitation constOne constOne (revStore descStore) 1 1 2) 0 0 0 ∧
    radKOf (calcIrfRadiation constOne constOne descStore 1 1 2) 0 0 0 =
      radKOf (calcIrfRadiation constOne constOne (revStore descStore) 1 1 2) 0 0 0 := by
  refine ⟨by norm_num [calcIrfExcitation, descStore, isOkE],
    by norm_num [calcIrfExcitation, descStore, revStore, flipud, isOkE], ?_, ?_, ?_, ?_⟩
  · norm_num [calcIrfExcitation, descStore, exFOf, constOne, interpVal, findSeg,
      flipud, npMin, npMax, linspace, trapz, sumTo, np_pi, range_one, range_two,
      List.foldl, min_def, max_def]
  · norm_num [calcIrfExcitation, descStore, revStore, exFOf, constOne, interpVal,
      findSeg, flipud, npMin, npMax, linspace, trapz, sumTo, np_pi, range_one,
      range_two, List.foldl, min_def, max_def]
  · norm_num [calcIrfExcitation, descStore, revStore, exFOf, constOne, interpVal,
      findSeg, flipud, npMin, npMax, linspace, trapz, sumTo, np_pi, range_one,
      range_two, List.foldl, min_def, max_def]
  · norm_num [calcIrfRadiation, descStore, revStore, radKOf, constOne, interpVal,
      findSeg, flipud, npMin, npMax, linspace, trapz, sumTo, np_pi, range_one,
      range_two, List.foldl, min_def, max_def]

/-! ## Claims C6, C7, C8 -/

/-- C6: at every candidate order the continuous-time matrices follow from the
discrete realization `(a, b, c, d)` by the bilinear substitution with
coefficients `(dt/2, 1, -dt/2, 1)`: with `M = inv(dt/2 * I - (-dt/2) * a)`
(an `n x n` inversion), `ac = (a - I) M`,
`bc = (dt/2 * 1 - (-dt/2) * 1) * (M b)`, `cc = c M`, and
`dc = d + (-dt/2) * (c M b)`. -/
theorem spec_c6 (n : Nat) (dt : ℚ) (a : Matrix (Fin n) (Fin n) ℚ)
    (b : Matrix (Fin n) (Fin 1) ℚ) (c : Matrix (Fin 1) (Fin n) ℚ) (d : ℚ) :
    bilinearTransform dt a b c d =
      ((a - 1) * matInv ((dt / 2) • (1 : Matrix (Fin n) (Fin n) ℚ) - (-(dt / 2)) • a),
       ((dt / 2) * 1 - (-(dt / 2)) * 1) •
         (matInv ((dt / 2) • (1 : Matrix (Fin n) (Fin n) ℚ) - (-(dt / 2)) • a) * b),
       c * matInv ((dt / 2) • (1 : Matrix (Fin n) (Fin n) ℚ) - (-(dt / 2)) • a),
       d + (-(dt / 2)) *
         ((c * matInv ((dt / 2) • (1 : Matrix (Fin n) (Fin n) ℚ) - (-(dt / 2)) • a) * b)
           0 0)) := by
  simp only [bilinearTransform]
  rw [one_smul, one_smul]

/-- C7: `calc_ss_excitation` always fails with the unimplemented-feature
error and never returns an output store. -/
theorem spec_c7 :
    ∀ (st : BemStore) (t_end : ℚ) (n_t n_w : Nat),
      calcSsExcitation st t_end n_t n_w =
        .error (.notImplemented "The calc_ss_excitation function is not yet implemented") ∧
      ∀ out, calcSsExcitation st t_end n_t n_w ≠ .ok out := by
  intro st t_end n_t n_w
  exact ⟨rfl, fun out h => Except.noConfusion h⟩

/-- C8 (amended): with fewer than 2 frequency points both IRF functions do
fail, but not by signalling the interpolation-layer insufficient-data error:
an empty grid fails in the `np.min` reduction and a 1-point grid fails with an
index error reading `w[1]` in the grid-direction check, before interpolation
is reached. -/
theorem spec_c8 (cosF sinF : ℚ → ℚ) (st : BemStore) (t_end t_length : ℚ)
    (n_t n_w : Nat) (h : st.nw < 2) :
    calcIrfRadiation cosF sinF st t_end n_t n_w =
      .error (if st.nw = 0 then .minEmpty else .indexError) ∧
    calcIrfExcitation cosF sinF st t_length n_t n_w =
      .error (if st.nw = 0 then .minEmpty else .indexError) ∧
    (if st.nw = 0 then PyErr.minEmpty else PyErr.indexError) ≠ .insufficientData := by
  rcases (by omega : st.nw = 0 ∨ st.nw = 1) with h0 | h1
  · simp [calcIrfRadiation, calcIrfExcitation, h0]
  · simp [calcIrfRadiation, calcIrfExcitation, h1]

/-- Witness for C8 at a concrete 1-point-grid store. -/
theorem spec_c8_witness :
    calcIrfRadiation constOne constOne onePointStore 100 3 3 =
      .error (if onePointStore.nw = 0 then .minEmpty else .indexError) ∧
    calcIrfExcitation constOne constOne onePointStore 100 3 3 =
      .error (if onePointStore.nw = 0 then .minEmpty else .indexError) ∧
    (if onePointStore.nw = 0 then PyErr.minEmpty else PyErr.indexError) ≠
      .insufficientData :=
  spec_c8 constOne constOne onePointStore 100 100 3 3 (by norm_num [onePointStore])

/-- Counterexample for C8 as stated: on a 1-point grid both functions raise
the index error of the direction check `w[0] > w[1]`, which is not the
insufficient-data error the claim requires. -/
theorem spec_c8_cex :
    calcIrfRadiation constOne constOne onePointStore 100 3 3 = .error .indexError ∧
    calcIrfExcitation constOne constOne onePointStore 100 3 3 = .error .indexError ∧
    (Except.error PyErr.indexError : Except PyErr RadIrfOut) ≠
      .error .insufficientData ∧
    (Except.error PyErr.indexError : Except PyErr ExIrfOut) ≠
      .error .insufficientData := by
  refine ⟨by simp [calcIrfRadiation, onePointStore],
    by simp [calcIrfExcitation, onePointStore], by simp, by simp⟩

/-! ## State-space reduction: loop and fold lemmas -/

theorem applyPair_deg (nF : Nat) (o : SSOut) (i j : Nat) :
    applyPair nF o i j .degenerate = o := rfl

theorem sameAt_refl (o : SSOut) (i j : Nat) : sameAt o o i j :=
  ⟨fun _ _ => rfl, fun _ => rfl, fun _ => rfl, rfl, fun _ => rfl, rfl, rfl, rfl⟩

theorem sameAt_trans {o1 o2 o3 : SSOut} {i j : Nat} (h : sameAt o1 o2 i j)
    (h' : sameAt o2 o3 i j) : sameAt o1 o3 i j := by
  obtain ⟨a1, b1, c1, d1, e1, f1, g1, i1⟩ := h
  obtain ⟨a2, b2, c2, d2, e2, f2, g2, i2⟩ := h'
  exact ⟨fun r s => (a1 r s).trans (a2 r s), fun r => (b1 r).trans (b2 r),
    fun s => (c1 s).trans (c2 s), d1.trans d2, fun k => (e1 k).trans (e2 k),
    f1.trans f2, g1.trans g2, i1.trans i2⟩

theorem applyPair_ne (nF : Nat) (o : SSOut) (a b i j : Nat) (po : PairOut)
    (h : ¬(i = a ∧ j = b)) : sameAt (applyPair nF o a b po) o i j := by
  cases po with
  | degenerate => exact sameAt_refl o i j
  | reduced res st r2 fin =>
    refine ⟨fun r s => ?_, fun r => ?_, fun s => ?_, ?_, fun k => ?_, ?_, ?_, ?_⟩ <;>
      simp [applyPair, h]

theorem applyPair_congr (nF : Nat) {o1 o2 : SSOut} (i j : Nat) (po : PairOut)
    (h : sameAt o1 o2 i j) :
    sameAt (applyPair nF o1 i j po) (applyPair nF o2 i j po) i j := by
  obtain ⟨hA, hB, hC, hD, hI, hR, hT, hIt⟩ := h
  cases po with
  | degenerate => exact ⟨hA, hB, hC, hD, hI, hR, hT, hIt⟩
  | reduced res st r2 fin =>
    refine ⟨fun r s => ?_, fun r => ?_, fun s => ?_, ?_, fun k => ?_, ?_, ?_, ?_⟩ <;>
      simp [applyPair, hA, hB, hC, hD, hI, hR, hT, hIt]

theorem runPairs_not_mem (body : Nat → Nat → Nat → PairRes) (K : Nat → Nat → Nat → ℚ)
    (nF : Nat) (th : ℚ) (mo fuel : Nat) :
    ∀ (l : List (Nat × Nat)) (o0 out : SSOut),
      runPairs body K nF th mo fuel l o0 = some (.ok out) →
      ∀ i j, (i, j) ∉ l → sameAt out o0 i j := by
  intro l
  induction l with
  | nil =>
    intro o0 out h i j _
    simp only [runPairs, Option.some.injEq, Except.ok.injEq] at h
    subst h
    exact sameAt_refl _ _ _
  | cons p rest ih =>
    obtain ⟨a, b⟩ := p
    intro o0 out h i j hmem
    cases hsp : ssPair (body a b) (K a b) nF th mo fuel with
    | none => rw [runPairs, hsp] at h; cases h
    | some e =>
      cases e with
      | error err => rw [runPairs, hsp] at h; simp at h
      | ok po =>
        simp only [runPairs, hsp] at h
        have hrest := ih _ _ h i j (fun hm => hmem (List.mem_cons_of_mem _ hm))
        have hne : ¬(i = a ∧ j = b) := by
          rintro ⟨rfl, rfl⟩
          exact hmem (List.mem_cons_self _ _)
        exact sameAt_trans hrest (applyPair_ne nF o0 a b i j po hne)

theorem runPairs_mem (body : Nat → Nat → Nat → PairRes) (K : Nat → Nat → Nat → ℚ)
    (nF : Nat) (th : ℚ) (mo fuel : Nat) :
    ∀ (l : List (Nat × Nat)), l.Nodup → ∀ (o0 out : SSOut),
      runPairs body K nF th mo fuel l o0 = some (.ok out) →
      ∀ i j, (i, j) ∈ l →
        ∃ po, ssPair (body i j) (K i j) nF th mo fuel = some (.ok po) ∧
          sameAt out (applyPair nF o0 i j po) i j := by
  intro l
  induction l with
  | nil => intro _ o0 out _ i j hmem; cases hmem
  | cons p rest ih =>
    obtain ⟨a, b⟩ := p
    intro hnd o0 out h i j hmem
    cases hsp : ssPair (body a b) (K a b) nF th mo fuel with
    | none => rw [runPairs, hsp] at h; cases h
    | some e =>
      cases e with
      | error err => rw [runPairs, hsp] at h; simp at h
      | ok po =>
        simp only [runPairs, hsp] at h
        rcases List.mem_cons.mp hmem with heq | hmem'
        · rw [Prod.mk.injEq] at heq
          obtain ⟨rfl, rfl⟩ := heq
          have hnotin : (i, j) ∉ rest := (List.nodup_cons.mp hnd).1
          exact ⟨po, hsp,
            runPairs_not_mem body K nF th mo fuel rest _ out h i j hnotin⟩
        · have hne : ¬(i = a ∧ j = b) := by
            rintro ⟨rfl, rfl⟩
            exact (List.nodup_cons.mp hnd).1 hmem'
          obtain ⟨po', hsp', hsame⟩ := ih (List.nodup_cons.mp hnd).2 _ _ h i j hmem'
          exact ⟨po', hsp',
            sameAt_trans hsame
              (applyPair_congr nF i j po' (applyPair_ne nF o0 a b i j po hne))⟩

theorem applyPair_shapes (nF : Nat) (o : SSOut) (i j : Nat) (po : PairOut) :
    (applyPair nF o i j po).Ashape = o.Ashape ∧
    (applyPair nF o i j po).Bshape = o.Bshape ∧
    (applyPair nF o i j po).Cshape = o.Cshape := by
  cases po <;> exact ⟨rfl, rfl, rfl⟩

theorem runPairs_shapes (body : Nat → Nat → Nat → PairRes) (K : Nat → Nat → Nat → ℚ)
    (nF : Nat) (th : ℚ) (mo fuel : Nat) :
    ∀ (l : List (Nat × Nat)) (o0 out : SSOut),
      runPairs body K nF th mo fuel l o0 = some (.ok out) →
      out.Ashape = o0.Ashape ∧ out.Bshape = o0.Bshape ∧ out.Cshape = o0.Cshape := by
  intro l
  induction l with
  | nil =>
    intro o0 out h
    simp only [runPairs, Option.some.injEq, Except.ok.injEq] at h
    subst h
    exact ⟨rfl, rfl, rfl⟩
  | cons p rest ih =>
    obtain ⟨a, b⟩ := p
    intro o0 out h
    cases hsp : ssPair (body a b) (K a b) nF th mo fuel with
    | none => rw [runPairs, hsp] at h; cases h
    | some e =>
      cases e with
      | error err => rw [runPairs, hsp] at h; simp at h
      | ok po =>
        simp only [runPairs, hsp] at h
        obtain ⟨h1, h2, h3⟩ := ih _ _ h
        obtain ⟨g1, g2, g3⟩ := applyPair_shapes nF o0 a b po
        exact ⟨h1.trans g1, h2.trans g2, h3.trans g3⟩

theorem allPairs_eq (d2 : Nat) : allPairs d2 = List.range 6 ×ˢ List.range d2 := rfl

theorem allPairs_nodup (d2 : Nat) : (allPairs d2).Nodup := by
  rw [allPairs_eq]
  exact List.Nodup.product (List.nodup_range 6) (List.nodup_range d2)

theorem mem_allPairs (d2 i j : Nat) : (i, j) ∈ allPairs d2 ↔ i < 6 ∧ j < d2 := by
  rw [allPairs_eq]
  simp [List.mem_product]

theorem ssLoopGo_spec (R2 : Nat → ℚ) (th : ℚ) (mo : Nat) :
    ∀ (fuel s0 st fin : Nat), ssLoopGo R2 th mo fuel s0 = some (st, fin) →
      s0 ≤ fin ∧
      ((st = 1 ∧ th ≤ R2 fin ∧ ∀ k, s0 ≤ k → k < fin → R2 k < th) ∨
       (st = 2 ∧ fin = mo ∧ ∀ k, s0 ≤ k → k ≤ mo → R2 k < th)) := by
  intro fuel
  induction fuel with
  | zero => intro s0 st fin h; cases h
  | succ f ih =>
    intro s0 st fin h
    rw [ssLoopGo] at h
    by_cases hge : R2 s0 ≥ th
    · rw [if_pos hge] at h
      simp only [Option.some.injEq, Prod.mk.injEq] at h
      obtain ⟨rfl, rfl⟩ := h
      exact ⟨le_refl _,
        .inl ⟨rfl, hge, fun k hk1 hk2 => absurd (lt_of_le_of_lt hk1 hk2) (lt_irrefl _)⟩⟩
    · rw [if_neg hge] at h
      by_cases heq : s0 = mo
      · rw [if_pos heq] at h
        simp only [Option.some.injEq, Prod.mk.injEq] at h
        obtain ⟨rfl, rfl⟩ := h
        refine ⟨le_refl _, .inr ⟨rfl, heq, fun k hk1 hk2 => ?_⟩⟩
        have hk : k = s0 := by omega
        subst hk
        exact not_le.mp hge
      · rw [if_neg heq] at h
        obtain ⟨hle, hcase⟩ := ih (s0 + 1) st fin h
        refine ⟨by omega, ?_⟩
        rcases hcase with ⟨h1, h2, h3⟩ | ⟨h1, h2, h3⟩
        · refine .inl ⟨h1, h2, fun k hk1 hk2 => ?_⟩
          rcases Nat.eq_or_lt_of_le hk1 with rfl | hlt
          · exact not_le.mp hge
          · exact h3 k (by omega) hk2
        · refine .inr ⟨h1, h2, fun k hk1 hk2 => ?_⟩
          rcases Nat.eq_or_lt_of_le hk1 with rfl | hlt
          · exact not_le.mp hge
          · exact h3 k (by omega) hk2

theorem ssLoopGo_total (R2 : Nat → ℚ) (th : ℚ) (mo : Nat) :
    ∀ (fuel s0 : Nat), s0 ≤ mo → mo - s0 < fuel →
      ∃ st fin, ssLoopGo R2 th mo fuel s0 = some (st, fin) ∧ fin ≤ mo := by
  intro fuel
  induction fuel with
  | zero => intro s0 h1 h2; omega
  | succ f ih =>
    intro s0 h1 h2
    by_cases hge : R2 s0 ≥ th
    · refine ⟨1, s0, ?_, h1⟩
      rw [ssLoopGo, if_pos hge]
    · by_cases heq : s0 = mo
      · refine ⟨2, s0, ?_, h1⟩
        rw [ssLoopGo, if_neg hge, if_pos heq]
      · obtain ⟨st, fin, hrun, hle⟩ := ih (s0 + 1) (by omega) (by omega)
        refine ⟨st, fin, ?_, hle⟩
        rw [ssLoopGo, if_neg hge, if_neg heq, hrun]

theorem ssLoopGo_diverge (R2 : Nat → ℚ) (th : ℚ) (mo : Nat) (hmo : mo < 2)
    (hfail : ∀ ss, 2 ≤ ss → R2 ss < th) :
    ∀ (fuel s0 : Nat), 2 ≤ s0 → ssLoopGo R2 th mo fuel s0 = none := by
  intro fuel
  induction fuel with
  | zero => intro s0 _; rfl
  | succ f ih =>
    intro s0 hs0
    rw [ssLoopGo, if_neg (not_le.mpr (hfail s0 hs0)), if_neg (by omega),
      ih (s0 + 1) (by omega)]

theorem ssPair_elim (bodyIJ : Nat → PairRes) (K : Nat → ℚ) (nF : Nat) (th : ℚ)
    (mo fuel : Nat) (po : PairOut)
    (h : ssPair bodyIJ K nF th mo fuel = some (.ok po)) :
    (r2btSq K nF = 0 ∧ po = .degenerate) ∨
    (r2btSq K nF ≠ 0 ∧ ∃ st fin,
      ssLoopGo (fun ss => r2Of K (bodyIJ ss).kEst nF) th mo fuel 2 = some (st, fin) ∧
      fin ≤ mo ∧ po = .reduced (bodyIJ fin) st (r2Of K (bodyIJ fin).kEst nF) fin) := by
  by_cases hz : r2btSq K nF = 0
  · left
    refine ⟨hz, ?_⟩
    rw [ssPair, if_pos hz] at h
    simp only [Option.some.injEq, Except.ok.injEq] at h
    exact h.symm
  · right
    refine ⟨hz, ?_⟩
    rw [ssPair, if_neg hz] at h
    cases hloop : ssLoopGo (fun ss => r2Of K (bodyIJ ss).kEst nF) th mo fuel 2 with
    | none => rw [hloop] at h; cases h
    | some p =>
      obtain ⟨st, fin⟩ := p
      simp only [hloop] at h
      by_cases hle : fin ≤ mo
      · rw [if_pos hle] at h
        simp only [Option.some.injEq, Except.ok.injEq] at h
        exact ⟨st, fin, rfl, hle, h.symm⟩
      · rw [if_neg hle] at h
        simp only [Option.some.injEq] at h
        cases h

/-! ## Claims C2, C3, C9, C10 -/

/-- C2: a pair whose reference norm is zero is skipped without raising (its
`ssPair` step succeeds with no writes), its recorded status is the
degenerate value 0 and its `A`, `B`, `C`, `D`, `irk_bss`, `r2t` and `it`
entries remain all-zero, while every other pair is still processed through its
own `ssPair` run and gets its own individually recorded status (1 or 2). -/
theorem spec_c2 :
    (∀ (bodyIJ : Nat → PairRes) (K : Nat → ℚ) (numFreq : Nat) (r2_thresh : ℚ)
        (max_order fuel : Nat), r2btSq K numFreq = 0 →
        ssPair bodyIJ K numFreq r2_thresh max_order fuel = some (.ok .degenerate)) ∧
    (∀ (body : Nat → Nat → Nat → PairRes) (K : Nat → Nat → Nat → ℚ)
        (numFreq d2 : Nat) (r2_thresh : ℚ) (max_order fuel : Nat) (out : SSOut),
        calcSsRadiation body K numFreq d2 r2_thresh max_order fuel = some (.ok out) →
        ∀ i j, i < 6 → j < d2 →
          (r2btSq (K i j) numFreq = 0 →
            out.rad_conv i j = 0 ∧ out.it i j = 0 ∧ out.r2t i j = 0 ∧ out.D i j = 0 ∧
            (∀ r s, out.A i j r s = 0) ∧ (∀ r, out.B i j r = 0) ∧
            (∀ s, out.C i j s = 0) ∧ (∀ k, out.irk_bss i j k = 0)) ∧
          (r2btSq (K i j) numFreq ≠ 0 →
            ∃ res st r2 fin,
              ssPair (body i j) (K i j) numFreq r2_thresh max_order fuel =
                some (.ok (.reduced res st r2 fin)) ∧
              out.rad_conv i j = (st : ℚ) ∧ (st = 1 ∨ st = 2))) := by
  constructor
  · intro bodyIJ K nF th mo fuel h
    rw [ssPair, if_pos h]
  · intro body K nF d2 th mo fuel out hrun i j hi hj
    obtain ⟨po, hsp, hsame⟩ := runPairs_mem body K nF th mo fuel (allPairs d2)
      (allPairs_nodup d2) _ _ hrun i j ((mem_allPairs d2 i j).mpr ⟨hi, hj⟩)
    obtain ⟨hA, hB, hC, hD, hI, hR, hT, hIt⟩ := hsame
    constructor
    · intro hz
      rcases ssPair_elim _ _ _ _ _ _ _ hsp with ⟨_, rfl⟩ | ⟨hnz, _⟩
      · exact ⟨hR, hIt, hT, hD, hA, hB, hC, hI⟩
      · exact absurd hz hnz
    · intro hnz
      rcases ssPair_elim _ _ _ _ _ _ _ hsp with ⟨hz, _⟩ | ⟨_, st, fin, hloop, hle, rfl⟩
      · exact absurd hz hnz
      · refine ⟨_, st, _, fin, hsp, ?_, ?_⟩
        · rw [hR]
          simp [applyPair]
        · rcases (ssLoopGo_spec _ _ _ _ _ _ _ hloop).2 with ⟨h1, _⟩ | ⟨h1, _⟩
          · exact .inl h1
          · exact .inr h1

/-- C3: for a non-degenerate pair the order search starts at 2 and increases
by exactly 1 per iteration; it stops with status 1 at the first order whose
fit quality `R2 = 1 - (|K - k_ss_est| / r2bt)^2` (carried here with squared
norms, `r2Of`) meets `r2_thresh`, and otherwise stops with status 2 on
reaching `max_order` with every tried order failing the threshold; the
recorded order `it[i,j]` of a completed run never lies below 2 or above
`max_order`. -/
theorem spec_c3 :
    (∀ (R2 : Nat → ℚ) (r2_thresh : ℚ) (max_order fuel st fin : Nat),
        ssLoopGo R2 r2_thresh max_order fuel 2 = some (st, fin) →
        2 ≤ fin ∧
        ((st = 1 ∧ r2_thresh ≤ R2 fin ∧ ∀ k, 2 ≤ k → k < fin → R2 k < r2_thresh) ∨
         (st = 2 ∧ fin = max_order ∧
           ∀ k, 2 ≤ k → k ≤ max_order → R2 k < r2_thresh))) ∧
    (∀ (body : Nat → Nat → Nat → PairRes) (K : Nat → Nat → Nat → ℚ)
        (numFreq d2 : Nat) (r2_thresh : ℚ) (max_order fuel : Nat) (out : SSOut),
        calcSsRadiation body K numFreq d2 r2_thresh max_order fuel = some (.ok out) →
        ∀ i j, i < 6 → j < d2 → r2btSq (K i j) numFreq ≠ 0 →
          ∃ st fin,
            ssLoopGo (fun ss => r2Of (K i j) ((body i j ss).kEst) numFreq)
              r2_thresh max_order fuel 2 = some (st, fin) ∧
            out.rad_conv i j = (st : ℚ) ∧ out.it i j = (fin : ℚ) ∧
            out.r2t i j = r2Of (K i j) ((body i j fin).kEst) numFreq ∧
            2 ≤ fin ∧ fin ≤ max_order) := by
  constructor
  · intro R2 th mo fuel st fin h
    exact ssLoopGo_spec R2 th mo fuel 2 st fin h
  · intro body K nF d2 th mo fuel out hrun i j hi hj hnz
    obtain ⟨po, hsp, hsame⟩ := runPairs_mem body K nF th mo fuel (allPairs d2)
      (allPairs_nodup d2) _ _ hrun i j ((mem_allPairs d2 i j).mpr ⟨hi, hj⟩)
    obtain ⟨hA, hB, hC, hD, hI, hR, hT, hIt⟩ := hsame
    rcases ssPair_elim _ _ _ _ _ _ _ hsp with ⟨hz, _⟩ | ⟨_, st, fin, hloop, hle, rfl⟩
    · exact absurd hz hnz
    · refine ⟨st, fin, hloop, ?_, ?_, ?_, ?_, hle⟩
      · rw [hR]; simp [applyPair]
      · rw [hIt]; simp [applyPair]
      · rw [hT]; simp [applyPair]
      · exact (ssLoopGo_spec _ _ _ _ _ _ _ hloop).1

/-- C9: after a completed `calc_ss_radiation` run, the per-pair state
containers have the fixed block shapes recorded from `np.zeros`
(`max_order x max_order` for `A`, `max_order x 1` for `B`,
`1 x max_order` for `C`), the recorded order is some `fin ≤ max_order`, and
every `A`/`B`/`C` entry outside the leading `fin`-sized sub-block is zero. -/
theorem spec_c9 (body : Nat → Nat → Nat → PairRes) (K : Nat → Nat → Nat → ℚ)
    (numFreq d2 : Nat) (r2_thresh : ℚ) (max_order fuel : Nat) (out : SSOut)
    (hrun : calcSsRadiation body K numFreq d2 r2_thresh max_order fuel =
      some (.ok out)) :
    out.Ashape = (max_order, max_order) ∧ out.Bshape = (max_order, 1) ∧
    out.Cshape = (1, max_order) ∧
    ∀ i j, i < 6 → j < d2 →
      ∃ fin : Nat, out.it i j = (fin : ℚ) ∧ fin ≤ max_order ∧
        (∀ r s, ¬(r < fin ∧ s < fin) → out.A i j r s = 0) ∧
        (∀ r, ¬ r < fin → out.B i j r = 0) ∧
        (∀ s, ¬ s < fin → out.C i j s = 0) := by
  obtain ⟨hsa, hsb, hsc⟩ :=
    runPairs_shapes body K numFreq r2_thresh max_order fuel (allPairs d2) _ _ hrun
  refine ⟨hsa, hsb, hsc, ?_⟩
  intro i j hi hj
  obtain ⟨po, hsp, hsame⟩ := runPairs_mem body K numFreq r2_thresh max_order fuel
    (allPairs d2) (allPairs_nodup d2) _ _ hrun i j ((mem_allPairs d2 i j).mpr ⟨hi, hj⟩)
  obtain ⟨hA, hB, hC, hD, hI, hR, hT, hIt⟩ := hsame
  rcases ssPair_elim _ _ _ _ _ _ _ hsp with ⟨_, rfl⟩ | ⟨_, st, fin, hloop, hle, rfl⟩
  · refine ⟨0, ?_, by omega, fun r s _ => hA r s, fun r _ => hB r, fun s _ => hC s⟩
    rw [hIt]
    simp [applyPair, initOut]
  · refine ⟨fin, ?_, hle, fun r s hrs => ?_, fun r hr => ?_, fun s hs => ?_⟩
    · rw [hIt]; simp [applyPair]
    · rw [hA]; simp [applyPair, initOut, hrs]
    · rw [hB]; simp [applyPair, initOut, hr]
    · rw [hC]; simp [applyPair, initOut, hs]

/-- C10 (implicit): for a non-degenerate pair with `max_order ≥ 2`, the order
search terminates — within `max_order - 1` iterations, hence after at most
`max_order - 1` order increments — at some order not exceeding `max_order`;
and when `max_order < 2` (so the equality stop test `ss == max_order` can
never fire above the start order 2) with no candidate order ever meeting the
threshold, the loop runs forever: it returns nothing at every fuel. -/
theorem spec_c10 :
    (∀ (R2 : Nat → ℚ) (r2_thresh : ℚ) (max_order : Nat), 2 ≤ max_order →
       ∀ fuel, max_order - 1 ≤ fuel →
         ∃ st fin, ssLoopGo R2 r2_thresh max_order fuel 2 = some (st, fin) ∧
           fin ≤ max_order ∧ fin - 2 ≤ max_order - 1) ∧
    (∀ (R2 : Nat → ℚ) (r2_thresh : ℚ) (max_order : Nat), max_order < 2 →
       (∀ ss, 2 ≤ ss → R2 ss < r2_thresh) →
       ∀ fuel, ssLoopGo R2 r2_thresh max_order fuel 2 = none) := by
  constructor
  · intro R2 th mo hmo fuel hfuel
    obtain ⟨st, fin, hrun, hle⟩ := ssLoopGo_total R2 th mo fuel 2 (by omega) (by omega)
    exact ⟨st, fin, hrun, hle, by omega⟩
  · intro R2 th mo hmo hfail fuel
    exact ssLoopGo_diverge R2 th mo hmo hfail fuel 2 (by omega)

/-! ## Concrete state-space run evaluation and witnesses -/

theorem ssPair_degenerate (bodyIJ : Nat → PairRes) (K : Nat → ℚ) (nF : Nat)
    (th : ℚ) (mo fuel : Nat) (h : r2btSq K nF = 0) :
    ssPair bodyIJ K nF th mo fuel = some (.ok .degenerate) := by
  rw [ssPair, if_pos h]

theorem r2btSq_cK00 : r2btSq (cK 0 0) 2 = 2 := by
  norm_num [r2btSq, sumTo_two, cK]

theorem cLoop_eval :
    ssLoopGo (fun ss => r2Of (cK 0 0) ((cBody 0 0 ss).kEst) 2) (1 / 2) 10 20 2 =
      some (1, 2) := by
  have hr2 : r2Of (cK 0 0) ((cBody 0 0 2).kEst) 2 = 1 := by
    norm_num [r2Of, sumTo_two, cBody, cK, r2btSq_cK00]
  rw [show ssLoopGo (fun ss => r2Of (cK 0 0) ((cBody 0 0 ss).kEst) 2) (1 / 2) 10 20 2 =
      (if r2Of (cK 0 0) ((cBody 0 0 2).kEst) 2 ≥ 1 / 2 then some (1, 2)
       else if (2 : Nat) = 10 then some (2, 2)
       else ssLoopGo (fun ss => r2Of (cK 0 0) ((cBody 0 0 ss).kEst) 2) (1 / 2) 10 19 3)
      from rfl]
  rw [if_pos (by rw [hr2]; norm_num)]

theorem ssPair_00 : ssPair (cBody 0 0) (cK 0 0) 2 (1 / 2) 10 20 =
    some (.ok (.reduced (cBody 0 0 2) 1 1 2)) := by
  have hr2 : r2Of (cK 0 0) ((cBody 0 0 2).kEst) 2 = 1 := by
    norm_num [r2Of, sumTo_two, cBody, cK, r2btSq_cK00]
  rw [ssPair, if_neg (by rw [r2btSq_cK00]; norm_num), cLoop_eval]
  show (if (2 : Nat) ≤ 10 then _ else _) = _
  rw [if_pos (by norm_num), hr2]

theorem cRun_eval : calcSsRadiation cBody cK 2 1 (1 / 2) 10 20 = some (.ok cOut) := by
  have hdeg : ∀ i : Nat, i ≠ 0 → ssPair (cBody i 0) (cK i 0) 2 (1 / 2) 10 20 =
      some (.ok .degenerate) := fun i hi =>
    ssPair_degenerate _ _ _ _ _ _ (by norm_num [r2btSq, sumTo_two, cK, hi])
  unfold calcSsRadiation
  rw [show allPairs 1 = [(0, 0), (1, 0), (2, 0), (3, 0), (4, 0), (5, 0)] from rfl]
  simp only [runPairs, ssPair_00, hdeg 1 (by decide), hdeg 2 (by decide),
    hdeg 3 (by decide), hdeg 4 (by decide), hdeg 5 (by decide), applyPair_deg]
  rfl

/-- Witness for C2 on the concrete run: the pair `(1, 0)` is degenerate and
left all-zero without raising, the pair `(0, 0)` is reduced with its own
status. -/
theorem spec_c2_witness :
    ssPair (cBody 1 0) (cK 1 0) 2 (1 / 2) 10 20 = some (.ok .degenerate) ∧
    (cOut.rad_conv 1 0 = 0 ∧ cOut.it 1 0 = 0 ∧ (∀ r s, cOut.A 1 0 r s = 0)) ∧
    (∃ res st r2 fin,
      ssPair (cBody 0 0) (cK 0 0) 2 (1 / 2) 10 20 =
        some (.ok (.reduced res st r2 fin)) ∧
      cOut.rad_conv 0 0 = (st : ℚ) ∧ (st = 1 ∨ st = 2)) := by
  have hz10 : r2btSq (cK 1 0) 2 = 0 := by norm_num [r2btSq, sumTo_two, cK]
  have hz00 : r2btSq (cK 0 0) 2 ≠ 0 := by rw [r2btSq_cK00]; norm_num
  have h1 := spec_c2.1 (cBody 1 0) (cK 1 0) 2 (1 / 2) 10 20 hz10
  have h2 := spec_c2.2 cBody cK 2 1 (1 / 2) 10 20 cOut cRun_eval
  obtain ⟨hdeg, _⟩ := h2 1 0 (by omega) (by omega)
  obtain ⟨hrc, hit, _, _, hA, _⟩ := hdeg hz10
  obtain ⟨_, hpos⟩ := h2 0 0 (by omega) (by omega)
  exact ⟨h1, ⟨hrc, hit, hA⟩, hpos hz00⟩

/-- Witness for C3: the concrete loop stops at the first passing order (2)
with status 1, and the concrete run records that status and order for the
non-degenerate pair `(0, 0)`. -/
theorem spec_c3_witness :
    (2 ≤ 2 ∧
      ((1 = 1 ∧ (1 / 2 : ℚ) ≤ r2Of (cK 0 0) ((cBody 0 0 2).kEst) 2 ∧
         ∀ k, 2 ≤ k → k < 2 → r2Of (cK 0 0) ((cBody 0 0 k).kEst) 2 < 1 / 2) ∨
       (1 = 2 ∧ 2 = 10 ∧
         ∀ k, 2 ≤ k → k ≤ 10 → r2Of (cK 0 0) ((cBody 0 0 k).kEst) 2 < 1 / 2))) ∧
    (∃ st fin,
      ssLoopGo (fun ss => r2Of (cK 0 0) ((cBody 0 0 ss).kEst) 2) (1 / 2) 10 20 2 =
        some (st, fin) ∧
      cOut.rad_conv 0 0 = (st : ℚ) ∧ cOut.it 0 0 = (fin : ℚ) ∧
      cOut.r2t 0 0 = r2Of (cK 0 0) ((cBody 0 0 fin).kEst) 2 ∧
      2 ≤ fin ∧ fin ≤ 10) := by
  constructor
  · exact spec_c3.1 (fun ss => r2Of (cK 0 0) ((cBody 0 0 ss).kEst) 2)
      (1 / 2) 10 20 1 2 cLoop_eval
  · exact spec_c3.2 cBody cK 2 1 (1 / 2) 10 20 cOut cRun_eval 0 0 (by omega)
      (by omega) (by rw [r2btSq_cK00]; norm_num)

/-- Witness for C9 on the concrete run. -/
theorem spec_c9_witness :
    cOut.Ashape = (10, 10) ∧ cOut.Bshape = (10, 1) ∧ cOut.Cshape = (1, 10) ∧
    ∀ i j, i < 6 → j < 1 →
      ∃ fin : Nat, cOut.it i j = (fin : ℚ) ∧ fin ≤ 10 ∧
        (∀ r s, ¬(r < fin ∧ s < fin) → cOut.A i j r s = 0) ∧
        (∀ r, ¬ r < fin → cOut.B i j r = 0) ∧
        (∀ s, ¬ s < fin → cOut.C i j s = 0) :=
  spec_c9 cBody cK 2 1 (1 / 2) 10 20 cOut cRun_eval

/-- Witness for C10: with `max_order = 5` the search terminates within 4
iterations; with `max_order = 1` and a threshold never met it diverges. -/
theorem spec_c10_witness :
    (∃ st fin, ssLoopGo (fun _ => (0 : ℚ)) 1 5 4 2 = some (st, fin) ∧
      fin ≤ 5 ∧ fin - 2 ≤ 4) ∧
    ssLoopGo (fun _ => (0 : ℚ)) 1 1 7 2 = none := by
  constructor
  · exact spec_c10.1 (fun _ => 0) 1 5 (by omega) 4 (by omega)
  · exact spec_c10.2 (fun _ => 0) 1 1 (by omega) (fun ss _ => by norm_num) 7
